import Mathlib

/-!
# chat-for-websocket-study: token codec, room registry and connection handling

A shallow embedding of `internal/chat` (token.go, message.go, room.go,
client.go) and of the terminal client of `cmd/client` (main.go), and the
theorems that settle the specification's testable properties against them.

Modelling conventions

* A Go `string` is modelled by a Lean `String`, read as its sequence of Unicode
  code points (what `for _, r := range s` yields).  Every string that reaches
  this package through `ReadJSON` is valid UTF-8, so this loses nothing there.
* The Go standard library is not part of the repository.  Its functions are
  modelled after their documented behaviour: `strings.TrimSpace`,
  `strings.ToLower`, `strings.EqualFold`, `crypto/md5`, `encoding/hex`.
  The Unicode case tables above U+007F and `fmt.Sprintf` are taken as
  parameters (`GoLib`).
* The program state is passed explicitly: the room, and a heap of clients
  addressed by their pointer identity.
-/

namespace Chat

/-! ## Standard library: strings -/

/-- The tables and formatting routine of the Go standard library which the
embedding does not fix: `unicode.ToLower` and `unicode.SimpleFold` on the code
points above U+007F, and `fmt.Sprintf` applied to string operands. -/
structure GoLib where
  toLowerHigh : Char → Char
  simpleFoldHigh : Char → Char
  sprintf : String → List String → String

/-- The predicate `unicode.IsSpace`: the Unicode White_Space property. -/
def isSpace (c : Char) : Bool :=
  let n := c.toNat
  n == 0x09 || n == 0x0A || n == 0x0B || n == 0x0C || n == 0x0D || n == 0x20 ||
  n == 0x85 || n == 0xA0 || n == 0x1680 || (0x2000 ≤ n && n ≤ 0x200A) ||
  n == 0x2028 || n == 0x2029 || n == 0x202F || n == 0x205F || n == 0x3000

/-- Drop the longest suffix of code points satisfying `p`
(`strings.TrimRightFunc`). -/
def trimRight (p : Char → Bool) : List Char → List Char
  | [] => []
  | c :: cs =>
    match trimRight p cs with
    | [] => if p c then [] else [c]
    | r :: rs => c :: r :: rs

/-- The function `strings.TrimSpace`: remove leading and trailing white
space. -/
def TrimSpace (s : String) : String :=
  ⟨trimRight isSpace (s.data.dropWhile isSpace)⟩

/-- The function `unicode.ToLower` on one code point. -/
def toLowerRune (lib : GoLib) (c : Char) : Char :=
  if c.toNat ≤ 0x7F then
    if 0x41 ≤ c.toNat ∧ c.toNat ≤ 0x5A then Char.ofNat (c.toNat + 0x20) else c
  else lib.toLowerHigh c

/-- The function `strings.ToLower`. -/
def ToLower (lib : GoLib) (s : String) : String :=
  ⟨s.data.map (toLowerRune lib)⟩

/-- The function `unicode.SimpleFold`: the table `asciiFold` below U+0080 (with
its two exits to U+212A KELVIN SIGN and U+017F LONG S), the library tables
above. -/
def simpleFold (lib : GoLib) (c : Char) : Char :=
  if c.toNat < 0x80 then
    if 0x41 ≤ c.toNat ∧ c.toNat ≤ 0x5A then Char.ofNat (c.toNat + 0x20)
    else if c.toNat = 0x6B then Char.ofNat 0x212A
    else if c.toNat = 0x73 then Char.ofNat 0x17F
    else if 0x61 ≤ c.toNat ∧ c.toNat ≤ 0x7A then Char.ofNat (c.toNat - 0x20)
    else c
  else lib.simpleFoldHigh c

/-- The orbit walk of `strings.EqualFold`:
`for r != sr && r < tr { r = unicode.SimpleFold(r) }`, bounded by `fuel`
steps. -/
def foldWalk (lib : GoLib) (sr tr : Char) : Nat → Char → Char
  | 0, r => r
  | fuel + 1, r =>
    if r ≠ sr ∧ r.toNat < tr.toNat then foldWalk lib sr tr fuel (simpleFold lib r)
    else r

/-- The number of code points, `unicode.MaxRune + 1`.  A walk that ends visits
no code point twice, so it ends within this many steps. -/
def runeCount : Nat := 0x110000

/-- One step of the comparison loop of `strings.EqualFold` on the code points
`sr` of the first and `tr` of the second string. -/
def runeEqualFold (lib : GoLib) (sr tr : Char) : Bool :=
  if tr = sr then true
  else
    let lo := if tr.toNat < sr.toNat then tr else sr
    let hi := if tr.toNat < sr.toNat then sr else tr
    if hi.toNat < 0x80 then
      decide (0x41 ≤ lo.toNat ∧ lo.toNat ≤ 0x5A ∧ hi.toNat = lo.toNat + 0x20)
    else
      decide (foldWalk lib lo hi runeCount (simpleFold lib lo) = hi)

/-- The comparison loop of `strings.EqualFold` over two code point
sequences. -/
def equalFoldRunes (lib : GoLib) : List Char → List Char → Bool
  | [], [] => true
  | [], _ :: _ => false
  | _ :: _, [] => false
  | sr :: s, tr :: t => if runeEqualFold lib sr tr then equalFoldRunes lib s t else false

/-- The function `strings.EqualFold`. -/
def EqualFold (lib : GoLib) (s t : String) : Bool :=
  equalFoldRunes lib s.data t.data

/-! ## Standard library: UTF-8, MD5 and hexadecimal encoding -/

/-- The UTF-8 encoding of one code point, as bytes. -/
def utf8Rune (c : Char) : List Nat :=
  let n := c.toNat
  if n < 0x80 then [n]
  else if n < 0x800 then [0xC0 + n / 0x40, 0x80 + n % 0x40]
  else if n < 0x10000 then [0xE0 + n / 0x1000, 0x80 + n / 0x40 % 0x40, 0x80 + n % 0x40]
  else [0xF0 + n / 0x40000, 0x80 + n / 0x1000 % 0x40, 0x80 + n / 0x40 % 0x40,
        0x80 + n % 0x40]

/-- The conversion `[]byte(s)`. -/
def toBytes (s : String) : List Nat :=
  s.data.flatMap utf8Rune

/-- Addition of 32-bit words. -/
def add32 (a b : Nat) : Nat := (a + b) % 2 ^ 32

/-- The function `bits.RotateLeft32`. -/
def rotl32 (x k : Nat) : Nat :=
  ((x <<< k) % 2 ^ 32) ||| (x >>> (32 - k))

/-- Complement of a 32-bit word. -/
def not32 (x : Nat) : Nat := x ^^^ 0xFFFFFFFF

/-- The per-round shift amounts of MD5. -/
def md5Shifts : List Nat :=
  [7, 12, 17, 22, 7, 12, 17, 22, 7, 12, 17, 22, 7, 12, 17, 22,
   5, 9, 14, 20, 5, 9, 14, 20, 5, 9, 14, 20, 5, 9, 14, 20,
   4, 11, 16, 23, 4, 11, 16, 23, 4, 11, 16, 23, 4, 11, 16, 23,
   6, 10, 15, 21, 6, 10, 15, 21, 6, 10, 15, 21, 6, 10, 15, 21]

/-- The additive constants of MD5, `floor(2^32 * |sin(i + 1)|)`. -/
def md5Table : List Nat :=
  [0xd76aa478, 0xe8c7b756, 0x242070db, 0xc1bdceee, 0xf57c0faf, 0x4787c62a, 0xa8304613, 0xfd469501,
   0x698098d8, 0x8b44f7af, 0xffff5bb1, 0x895cd7be, 0x6b901122, 0xfd987193, 0xa679438e, 0x49b40821,
   0xf61e2562, 0xc040b340, 0x265e5a51, 0xe9b6c7aa, 0xd62f105d, 0x02441453, 0xd8a1e681, 0xe7d3fbc8,
   0x21e1cde6, 0xc33707d6, 0xf4d50d87, 0x455a14ed, 0xa9e3e905, 0xfcefa3f8, 0x676f02d9, 0x8d2a4c8a,
   0xfffa3942, 0x8771f681, 0x6d9d6122, 0xfde5380c, 0xa4beea44, 0x4bdecfa9, 0xf6bb4b60, 0xbebfbc70,
   0x289b7ec6, 0xeaa127fa, 0xd4ef3085, 0x04881d05, 0xd9d4d039, 0xe6db99e5, 0x1fa27cf8, 0xc4ac5665,
   0xf4292244, 0x432aff97, 0xab9423a7, 0xfc93a039, 0x655b59c3, 0x8f0ccc92, 0xffeff47d, 0x85845dd1,
   0x6fa87e4f, 0xfe2ce6e0, 0xa3014314, 0x4e0811a1, 0xf7537e82, 0xbd3af235, 0x2ad7d2bb, 0xeb86d391]

/-- The chaining value of MD5: four 32-bit words. -/
structure Md5State where
  a : Nat
  b : Nat
  c : Nat
  d : Nat
deriving DecidableEq, Repr

/-- The initial chaining value. -/
def md5Init : Md5State := ⟨0x67452301, 0xefcdab89, 0x98badcfe, 0x10325476⟩

/-- Step `i` (0 to 63) of the MD5 compression function on the message words
`m`. -/
def md5Step (m : List Nat) (st : Md5State) (i : Nat) : Md5State :=
  let f :=
    if i < 16 then (st.b &&& st.c) ||| (not32 st.b &&& st.d)
    else if i < 32 then (st.d &&& st.b) ||| (not32 st.d &&& st.c)
    else if i < 48 then st.b ^^^ st.c ^^^ st.d
    else st.c ^^^ (st.b ||| not32 st.d)
  let g :=
    if i < 16 then i
    else if i < 32 then (5 * i + 1) % 16
    else if i < 48 then (3 * i + 5) % 16
    else (7 * i) % 16
  let x := add32 (add32 (add32 st.a f) (md5Table.getD i 0)) (m.getD g 0)
  ⟨st.d, add32 st.b (rotl32 x (md5Shifts.getD i 0)), st.b, st.c⟩

/-- Read the bytes of a block as little-endian 32-bit words. -/
def leWords : List Nat → List Nat
  | b0 :: b1 :: b2 :: b3 :: rest =>
    (b0 + b1 * 0x100 + b2 * 0x10000 + b3 * 0x1000000) :: leWords rest
  | _ => []

/-- The MD5 compression function on one 64-byte block. -/
def md5Block (st : Md5State) (block : List Nat) : Md5State :=
  let r := (List.range 64).foldl (md5Step (leWords block)) st
  ⟨add32 st.a r.a, add32 st.b r.b, add32 st.c r.c, add32 st.d r.d⟩

/-- The little-endian bytes of `x`, `n` of them. -/
def leBytes : Nat → Nat → List Nat
  | 0, _ => []
  | n + 1, x => x % 0x100 :: leBytes n (x / 0x100)

/-- The MD5 padding: a one bit, zero bits up to 56 modulo 64 bytes, and the bit
length in 64 bits. -/
def md5Pad (msg : List Nat) : List Nat :=
  let len := msg.length
  msg ++ [0x80] ++ List.replicate ((119 - len % 64) % 64) 0 ++
    leBytes 8 ((8 * len) % 2 ^ 64)

/-- Run the compression function over `n` consecutive 64-byte blocks. -/
def md5Blocks : Nat → Md5State → List Nat → Md5State
  | 0, st, _ => st
  | n + 1, st, data => md5Blocks n (md5Block st (data.take 64)) (data.drop 64)

/-- The function `md5.Sum`: the 16-byte digest. -/
def md5Sum (msg : List Nat) : List Nat :=
  let padded := md5Pad msg
  let st := md5Blocks (padded.length / 64) md5Init padded
  leBytes 4 st.a ++ leBytes 4 st.b ++ leBytes 4 st.c ++ leBytes 4 st.d

/-- One lowercase hexadecimal digit (`hextable` of `encoding/hex`). -/
def hexDigit (n : Nat) : Char :=
  "0123456789abcdef".data.getD n '0'

/-- The function `hex.EncodeToString`. -/
def hexEncode (bytes : List Nat) : String :=
  ⟨bytes.flatMap fun b => [hexDigit (b / 16), hexDigit (b % 16)]⟩

/-! ## token.go -/

/-- GenerateToken builds the md5 hash for a given chatID, participant name, and
salt. -/
def GenerateToken (lib : GoLib) (chatID name salt : String) : String :=
  let normalized := chatID ++ ToLower lib (TrimSpace name) ++ salt
  let sum := md5Sum (toBytes normalized)
  hexEncode sum

/-- ValidateToken ensures the provided token matches the expected md5 hash. -/
def ValidateToken (lib : GoLib) (chatID name salt token : String) : Bool :=
  let expected := GenerateToken lib chatID name salt
  EqualFold lib expected token

/-! ## message.go -/

/-- The constant `MessageTypeJoin`. -/
def MessageTypeJoin : String := "join"

/-- The constant `MessageTypeToken`. -/
def MessageTypeToken : String := "token"

/-- The constant `MessageTypeMessage`. -/
def MessageTypeMessage : String := "message"

/-- The constant `MessageTypeSystem`. -/
def MessageTypeSystem : String := "system"

/-- The constant `MessageTypeError`. -/
def MessageTypeError : String := "error"

/-- An instant of `time.Time`; `0` stands for the zero value. -/
abbrev Time := Nat

/-- Envelope describes the JSON payload exchanged over the WebSocket.  The Go
field `Type` is written `Type_`. -/
structure Envelope where
  Type_ : String := ""
  ChatID : String := ""
  Name : String := ""
  Token : String := ""
  Body : String := ""
  Sender : String := ""
  Timestamp : Time := 0
  Error : String := ""
deriving DecidableEq, Repr

/-- OutboundMessage describes a message broadcast to the room. -/
structure OutboundMessage where
  Body : String := ""
  Sender : String := ""
  System : Bool := false
deriving DecidableEq, Repr

/-! ## Standard library: encoding/json -/

/-- A value of a JSON object member of an encoded envelope. -/
inductive JsonValue where
  | str (s : String)
  | time (t : Time)
deriving DecidableEq, Repr

/-- A serialized envelope: the members of the JSON object, in order.  The
byte-level rendering (quoting, escapes) is not modelled. -/
abbrev Payload := List (String × JsonValue)

/-- A string member tagged `omitempty`. -/
def omitEmpty (key value : String) : Payload :=
  if value = "" then [] else [(key, JsonValue.str value)]

/-- The function `json.Marshal` on an `Envelope`, following the struct tags:
every string member but `type` is omitted when empty; `omitempty` has no effect
on the struct-valued `timestamp`.  It does not fail on these values. -/
def jsonMarshal (e : Envelope) : Except String Payload :=
  Except.ok
    ([("type", JsonValue.str e.Type_)] ++ omitEmpty "chatId" e.ChatID ++
      omitEmpty "name" e.Name ++ omitEmpty "token" e.Token ++ omitEmpty "body" e.Body ++
      omitEmpty "sender" e.Sender ++ [("timestamp", JsonValue.time e.Timestamp)] ++
      omitEmpty "error" e.Error)

/-! ## State: connections, clients, the room -/

/-- The outcome of one `conn.ReadJSON` call: a decoded envelope or a read
error. -/
inductive ReadResult where
  | ok (env : Envelope)
  | err (msg : String)
deriving DecidableEq, Repr

/-- The WebSocket connection seen from this package: the outcomes of the reads
still to come, the text messages written so far, and whether `Close` was
called. -/
structure Conn where
  inbound : List ReadResult := []
  written : List Payload := []
  closed : Bool := false
deriving DecidableEq, Repr

/-- Client represents a single WebSocket participant.  The channel `send` is a
queue, oldest item first, with capacity `cap`.  The logger is not modelled. -/
structure Client where
  conn : Conn := {}
  name : String := ""
  token : String := ""
  send : List Payload := []
  cap : Nat := 64
deriving DecidableEq, Repr

/-- The identity of a `*Client`. -/
abbrev ClientId := Nat

/-- Room manages connected clients and message fan-out.  The map `clients` is
its list of keys; the lock and the logger are not modelled. -/
structure Room where
  chatID : String
  salt : String
  clients : List ClientId := []
deriving DecidableEq, Repr

/-- The program state: the room and the clients by identity. -/
structure State where
  room : Room
  heap : ClientId → Client

/-- What the environment supplies during `Serve`: the value of the `k`-th
`time.Now()` and whether the context is done at the `k`-th turn of the read
loop. -/
structure Oracle where
  now : Nat → Time
  ctxDone : Nat → Bool

/-! ## room.go -/

/-- NewRoom builds a chat room that validates the provided chatID and salt. -/
def NewRoom (chatID salt : String) : Room :=
  { chatID := chatID, salt := salt, clients := [] }

/-- ChatID returns the configured identifier of the room. -/
def Room.ChatID (r : Room) : String := r.chatID

/-- Salt returns the configured hashing salt. -/
def Room.Salt (r : Room) : String := r.salt

/-- Register adds a client to the broadcast list. -/
def Room.Register (s : State) (c : ClientId) : State :=
  { s with room := { s.room with clients := s.room.clients.insert c } }

/-- Unregister removes a client from the broadcast list. -/
def Room.Unregister (s : State) (c : ClientId) : State :=
  if c ∈ s.room.clients then
    { s with room := { s.room with clients := s.room.clients.erase c } }
  else s

/-! ## client.go: the outbound queue -/

/-- NewClient builds a client around the WebSocket connection. -/
def NewClient (conn : Conn) : Client :=
  { conn := conn, send := [], cap := 64 }

/-- Name returns the client's display name. -/
def Client.Name (c : Client) : String := c.name

/-- Enqueue buffers a message for async delivery, dropping when the buffer is
full. -/
def Client.Enqueue (c : Client) (payload : Payload) : Client :=
  if c.send.length < c.cap then { c with send := c.send ++ [payload] }
  else c

/-- The call `client.Enqueue(data)` through the pointer `c`. -/
def State.enqueue (s : State) (c : ClientId) (payload : Payload) : State :=
  { s with heap := Function.update s.heap c ((s.heap c).Enqueue payload) }

/-- The method `sendEnvelope`. -/
def Client.sendEnvelope (s : State) (c : ClientId) (env : Envelope) : State :=
  match jsonMarshal env with
  | Except.error _ => s
  | Except.ok data => s.enqueue c data

/-- The method `sendError`, on the text of the error. -/
def Client.sendError (s : State) (c : ClientId) (err : String) : State :=
  Client.sendEnvelope s c { Type_ := MessageTypeError, Error := err }

/-- What the select statement of `writeLoop` chooses in one turn, with the
outcome of the write it leads to. -/
inductive SelectCase where
  | ctxDone
  | message (writeOk : Bool)
  | tick (pingOk : Bool)
deriving DecidableEq, Repr

/-- The method `writeLoop`, run over the choices of its select statement.  The
channel is never closed, so a receive yields its oldest item; the case is not
ready while the queue is empty. -/
def Client.writeLoop (c : Client) : List SelectCase → Client
  | [] => c
  | SelectCase.ctxDone :: _ => c
  | SelectCase.message writeOk :: rest =>
    match c.send with
    | [] => Client.writeLoop c rest
    | message :: queue =>
      if writeOk then
        Client.writeLoop
          { c with send := queue, conn := { c.conn with written := c.conn.written ++ [message] } }
          rest
      else { c with send := queue }
  | SelectCase.tick pingOk :: rest =>
    if pingOk then Client.writeLoop c rest else c

/-! ## room.go: broadcast -/

/-- The envelope `Broadcast` builds for `msg` at the time `now`. -/
def Room.broadcastEnvelope (r : Room) (msg : OutboundMessage) (now : Time) : Envelope :=
  let envelope : Envelope :=
    { Type_ := MessageTypeSystem, ChatID := r.chatID, Body := msg.Body, Timestamp := now }
  if msg.System then
    { envelope with Sender := "system" }
  else
    { envelope with Sender := msg.Sender, Type_ := MessageTypeMessage }

/-- Broadcast delivers a message to every client except the excluded sender.
The map is ranged over in the order of its key list; `now` is the value of
`time.Now().UTC()`. -/
def Room.Broadcast (s : State) (msg : OutboundMessage) (exclude : Option ClientId)
    (now : Time) : State :=
  let envelope := s.room.broadcastEnvelope msg now
  match jsonMarshal envelope with
  | Except.error _ => s
  | Except.ok data =>
    s.room.clients.foldl
      (fun st client => if exclude = some client then st else st.enqueue client data) s

/-- BroadcastSystem sends a system notification to every client. -/
def Room.BroadcastSystem (lib : GoLib) (s : State) (format : String) (args : List String)
    (now : Time) : State :=
  Room.Broadcast s { Body := lib.sprintf format args, System := true } none now

/-! ## client.go: handshake, read loop, Serve -/

/-- The call `c.conn.ReadJSON(&env)`: the next read outcome; a connection with
nothing more to deliver fails the read. -/
def Client.ReadJSON (s : State) (c : ClientId) : ReadResult × State :=
  match (s.heap c).conn.inbound with
  | [] => (ReadResult.err "EOF", s)
  | r :: rest =>
    let conn : Conn := { (s.heap c).conn with inbound := rest }
    let client : Client := { (s.heap c) with conn := conn }
    (r, { s with heap := Function.update s.heap c client })

/-- The method `handshake`: the error text, or `none` for `nil`. -/
def Client.handshake (lib : GoLib) (s : State) (c : ClientId) : Option String × State :=
  match Client.ReadJSON s c with
  | (ReadResult.err e, s1) => (some ("read join envelope: " ++ e), s1)
  | (ReadResult.ok env, s1) =>
    if env.Type_ ≠ MessageTypeJoin then
      (some "expected join message", s1)
    else if TrimSpace env.ChatID ≠ s1.room.ChatID then
      (some "unknown chat ID", s1)
    else
      let name := TrimSpace env.Name
      if name = "" then
        (some "name is required", s1)
      else
        let client : Client :=
          { (s1.heap c) with
            name := name
            token := GenerateToken lib s1.room.ChatID name s1.room.Salt }
        (none, { s1 with heap := Function.update s1.heap c client })

/-- The method `handleChatMessage`. -/
def Client.handleChatMessage (lib : GoLib) (s : State) (c : ClientId) (env : Envelope)
    (now : Time) : State :=
  let body := TrimSpace env.Body
  if body = "" then
    Client.sendError s c "message body required"
  else if env.Token = "" then
    Client.sendError s c "token required"
  else if !ValidateToken lib s.room.ChatID (s.heap c).name s.room.Salt env.Token then
    Client.sendError s c "invalid token"
  else
    Room.Broadcast s { Body := body, Sender := (s.heap c).name } (some c) now

/-- The method `readLoop`, for at most `fuel` turns; `k` counts the turns
taken.  It returns the state and the number of turns. -/
def Client.readLoop (lib : GoLib) (o : Oracle) (c : ClientId) :
    Nat → Nat → State → State × Nat
  | 0, k, s => (s, k)
  | fuel + 1, k, s =>
    if o.ctxDone k then (s, k)
    else
      match Client.ReadJSON s c with
      | (ReadResult.err _, s1) => (s1, k)
      | (ReadResult.ok env, s1) =>
        if env.Type_ = MessageTypeMessage then
          Client.readLoop lib o c fuel (k + 1) (Client.handleChatMessage lib s1 c env (o.now (k + 1)))
        else
          Client.readLoop lib o c fuel (k + 1)
            (Client.sendError s1 c ("unsupported message type " ++ env.Type_))

/-- The call `c.conn.Close()`. -/
def Client.closeConn (s : State) (c : ClientId) : State :=
  let conn : Conn := { (s.heap c).conn with closed := true }
  let client : Client := { (s.heap c) with conn := conn }
  { s with heap := Function.update s.heap c client }

/-- Serve handles the lifecycle of the client connection.  The deferred
function runs last on either path.  Every turn of the read loop takes one read
outcome and an exhausted connection fails the read, so the fuel given to the
loop is never used up.  The concurrent `writeLoop` is modelled on its own. -/
def Client.Serve (lib : GoLib) (o : Oracle) (s : State) (c : ClientId) : State :=
  match Client.handshake lib s c with
  | (some err, s1) =>
    let s2 := Client.sendError s1 c err
    Client.closeConn s2 c
  | (none, s1) =>
    let s2 := Room.Register s1 c
    let s3 := Client.sendEnvelope s2 c
      { Type_ := MessageTypeToken, Token := (s2.heap c).token, ChatID := s2.room.ChatID }
    let s4 := Room.BroadcastSystem lib s3 "%s joined" [(s3.heap c).name] (o.now 0)
    let (s5, k) := Client.readLoop lib o c ((s4.heap c).conn.inbound.length + 1) 0 s4
    let s6 := Room.Unregister s5 c
    let s7 := Room.Broadcast s6
      { Body := lib.sprintf "%s left" [(s6.heap c).name], System := true } (some c) (o.now (k + 1))
    Client.closeConn s7 c

/-! ## cmd/client/main.go: the terminal client -/

/-- The interface `wsConn` as the tests' `mockConn` implements it: the
envelopes written so far and the error every `WriteJSON` returns, if any. -/
structure wsConn where
  writes : List Envelope := []
  writeErr : Option String := none
deriving DecidableEq, Repr

/-- The method `WriteJSON`: the error, or `none` for `nil`, and the connection
afterwards. -/
def wsConn.WriteJSON (m : wsConn) (v : Envelope) : Option String × wsConn :=
  match m.writeErr with
  | some err => (some err, m)
  | none => (none, { m with writes := m.writes ++ [v] })

/-- The terminal client.  The `atomic.Value` field `token` holds nothing
(`none`) or a string; the logger and the terminal output are not modelled. -/
structure wsClient where
  conn : wsConn := {}
  chatID : String := ""
  name : String := ""
  token : Option String := none
deriving DecidableEq, Repr

/-- The constructor `newWSClient`. -/
def newWSClient (conn : wsConn) (chatID name : String) : wsClient :=
  { conn := conn, chatID := chatID, name := name }

/-- The method `join`. -/
def wsClient.join (c : wsClient) : Option String × wsClient :=
  let joinEnvelope : Envelope := { Type_ := MessageTypeJoin, ChatID := c.chatID, Name := c.name }
  match c.conn.WriteJSON joinEnvelope with
  | (some err, conn) => (some ("send join: " ++ err), { c with conn := conn })
  | (none, conn) => (none, { c with conn := conn })

/-- The method `handleEnvelope`.  Every case but the token case only prints. -/
def wsClient.handleEnvelope (c : wsClient) (env : Envelope) : wsClient :=
  if env.Type_ = MessageTypeToken then
    if env.Token = "" then c
    else { c with token := some env.Token }
  else if env.Type_ = MessageTypeSystem then c
  else if env.Type_ = MessageTypeMessage then c
  else if env.Type_ = MessageTypeError then c
  else c

/-- The method `sendMessage`: the error, or `none` for `nil`, and the client
afterwards. -/
def wsClient.sendMessage (c : wsClient) (body : String) : Option String × wsClient :=
  match c.token with
  | none => (some "token not yet issued by server", c)
  | some token =>
    if token = "" then (some "token not yet issued by server", c)
    else
      let env : Envelope := { Type_ := MessageTypeMessage, Token := token, Body := body, Sender := c.name }
      match c.conn.WriteJSON env with
      | (some err, conn) => (some ("write message: " ++ err), { c with conn := conn })
      | (none, conn) => (none, { c with conn := conn })

/-! ## Instances used to evaluate the definitions -/

/-- Substitute the operands for the verbs `%s` of a format, left to right. -/
def substVerbs : List Char → List String → List Char
  | '%' :: 's' :: rest, a :: operands => a.data ++ substVerbs rest operands
  | c :: rest, operands => c :: substVerbs rest operands
  | [], _ => []

/-- An instance of the library parameters: tables that leave the code points
above U+007F alone, and a `Sprintf` that knows the verb `%s`. -/
def GoLib.plain : GoLib :=
  { toLowerHigh := id
    simpleFoldHigh := id
    sprintf := fun format operands => ⟨substVerbs format.data operands⟩ }

/-- A client of capacity two whose queue holds one item. -/
def halfFull : Client := { cap := 2, send := [[("type", JsonValue.str "system")]] }

/-- A client of capacity one whose queue holds one item. -/
def full : Client := { cap := 1, send := [[("type", JsonValue.str "system")]] }

/-- The state of `TestRoomBroadcast`: alice is client 1, bob is client 2, each
with a queue of capacity one. -/
def aliceAndBob : State :=
  Room.Register
    (Room.Register
      { room := NewRoom "1234564" "salt"
        heap := fun i => if i = 1 then { name := "alice", cap := 1 } else { name := "bob", cap := 1 } }
      1)
    2

/-- A join envelope for a room id and a name. -/
def joinEnvelope (chatID name : String) : Envelope :=
  { Type_ := MessageTypeJoin, ChatID := chatID, Name := name }

/-- A room "1234564" with salt "S" in which bob, client 2, is registered, and a
fresh client 1 whose connection is about to deliver `reads`. -/
def lobby (reads : List ReadResult) : State :=
  { room := { chatID := "1234564", salt := "S", clients := [2] }
    heap := fun i => if i = 1 then NewClient { inbound := reads } else { name := "bob" } }

/-- An environment in which every clock reading is 0 and the context is never
done. -/
def Oracle.still : Oracle := { now := fun _ => 0, ctxDone := fun _ => false }

/-- The lobby after client 1 has joined as "alice": the state after the
handshake and the registration. -/
def aliceJoined : State :=
  Room.Register
    (Client.handshake GoLib.plain (lobby [ReadResult.ok (joinEnvelope "1234564" "alice")]) 1).2 1

/-- The message "hi" carrying alice's token. -/
def hiFromAlice : Envelope :=
  { Type_ := MessageTypeMessage, Body := "hi"
    Token := GenerateToken GoLib.plain "1234564" "alice" "S" }

/-! ## Specification-side notions -/

/-- The lower-case form of an ASCII letter; every other code point is left
alone. -/
def lowerLetter (c : Char) : Char :=
  if 0x41 ≤ c.toNat ∧ c.toNat ≤ 0x5A then Char.ofNat (c.toNat + 0x20) else c

/-- The upper-case form of an ASCII letter; every other code point is left
alone. -/
def upperLetter (c : Char) : Char :=
  if 0x61 ≤ c.toNat ∧ c.toNat ≤ 0x7A then Char.ofNat (c.toNat - 0x20) else c

/-- The upper-cased form of a token. -/
def upperCased (s : String) : String := ⟨s.data.map upperLetter⟩

/-- Two strings are equal up to letter case: they agree once the letters
`A`..`Z` are lowered.  A token consists of the digits and the letters `a`..`f`,
so against a token no other notion of letter case is in play. -/
def EqualUpToCase (s t : String) : Prop :=
  s.data.map lowerLetter = t.data.map lowerLetter

/-- A name consists only of white space (the empty name included). -/
def Blank (s : String) : Prop := ∀ c ∈ s.data, isSpace c = true

/-- A lowercase hexadecimal digit. -/
def IsHexDigit (c : Char) : Prop :=
  (0x30 ≤ c.toNat ∧ c.toNat ≤ 0x39) ∨ (0x61 ≤ c.toNat ∧ c.toNat ≤ 0x66)

/-! ## Token codec: normalization and the regression fixture -/

theorem lower_trim_fixture (lib : GoLib) :
    ToLower lib (TrimSpace "Alice") = "alice" ∧ ToLower lib (TrimSpace "alice") = "alice" ∧
    ToLower lib (TrimSpace "  ALICE  ") = "alice" :=
  ⟨rfl, rfl, rfl⟩

/-- C1: two names whose trimmed, lower-cased forms are equal derive the same
token for every room id and salt; in particular "Alice", "alice" and
"  ALICE  " share their token for every room id and salt. -/
theorem GenerateToken_normalized (lib : GoLib) :
    (∀ R S n1 n2 : String, ToLower lib (TrimSpace n1) = ToLower lib (TrimSpace n2) →
      GenerateToken lib R n1 S = GenerateToken lib R n2 S) ∧
    (∀ R S : String,
      GenerateToken lib R "Alice" S = GenerateToken lib R "alice" S ∧
      GenerateToken lib R "alice" S = GenerateToken lib R "  ALICE  " S) := by
  constructor
  · intro R S n1 n2 h
    simp only [GenerateToken, h]
  · intro R S
    obtain ⟨h1, h2, h3⟩ := lower_trim_fixture lib
    simp only [GenerateToken, h1, h2, h3, and_self]

theorem GenerateToken_normalized_witness :
    ToLower GoLib.plain (TrimSpace " Bob") = ToLower GoLib.plain (TrimSpace "bob\t") ∧
    GenerateToken GoLib.plain "r" " Bob" "s" = GenerateToken GoLib.plain "r" "bob\t" "s" :=
  ⟨by decide, (GenerateToken_normalized GoLib.plain).1 "r" "s" " Bob" "bob\t" (by decide)⟩

set_option maxRecDepth 100000 in
theorem md5_fixture :
    hexEncode (md5Sum (toBytes ("1234564" ++ "alice" ++ "oAQF6zsVq7xg3sd6"))) =
      "1adbbda05794ed4157cca81666f75b47" := by
  decide

theorem token_fixture (lib : GoLib) :
    GenerateToken lib "1234564" "Alice" "oAQF6zsVq7xg3sd6" =
      "1adbbda05794ed4157cca81666f75b47" := by
  have h := (lower_trim_fixture lib).1
  simp only [GenerateToken, h]
  exact md5_fixture

/-- C3: the token of room "1234564", name "Alice" and salt "oAQF6zsVq7xg3sd6"
is "1adbbda05794ed4157cca81666f75b47", and every token is the lowercase
hexadecimal MD5 digest of room id, trimmed lower-cased name and salt
concatenated in that order with nothing in between. -/
theorem GenerateToken_fixture (lib : GoLib) :
    GenerateToken lib "1234564" "Alice" "oAQF6zsVq7xg3sd6" =
      "1adbbda05794ed4157cca81666f75b47" ∧
    ∀ R N S : String,
      GenerateToken lib R N S =
        hexEncode (md5Sum (toBytes (R ++ ToLower lib (TrimSpace N) ++ S))) :=
  ⟨token_fixture lib, fun _ _ _ => rfl⟩

/-! ## Token codec: verification -/

theorem toNat_ofNat_of_lt (n : Nat) (h : n < 0xD800) : (Char.ofNat n).toNat = n := by
  have hv : n.isValidChar := Or.inl h
  simp only [Char.ofNat, hv, dite_true]
  rfl

theorem char_eq_iff_toNat (c d : Char) : c = d ↔ c.toNat = d.toNat := by
  constructor
  · intro h; rw [h]
  · intro h
    have := congrArg Char.ofNat h
    simpa using this

theorem hexDigit_isHex (n : Nat) : IsHexDigit (hexDigit n) := by
  by_cases h : n < 16
  · interval_cases n <;> (unfold IsHexDigit; decide)
  · have : hexDigit n = '0' := by
      unfold hexDigit
      exact List.getD_eq_default _ _ (by simpa using h)
    rw [this]; unfold IsHexDigit; decide

theorem hexEncode_isHex (bs : List Nat) : ∀ c ∈ (hexEncode bs).data, IsHexDigit c := by
  intro c hc
  simp only [hexEncode, List.mem_flatMap, List.mem_cons, List.mem_singleton, List.not_mem_nil,
    or_false] at hc
  obtain ⟨b, -, rfl | rfl⟩ := hc <;> exact hexDigit_isHex _

theorem lowerLetter_hex (h : Char) (hh : IsHexDigit h) : lowerLetter h = h := by
  unfold lowerLetter IsHexDigit at *
  rw [if_neg]; omega

theorem foldWalk_hex (lib : GoLib) (h c : Char) (hh : IsHexDigit h) (hc : 0x80 ≤ c.toNat)
    (fuel : Nat) (hf : 2 ≤ fuel) : foldWalk lib h c fuel (simpleFold lib h) = h := by
  obtain ⟨k, rfl⟩ : ∃ k, fuel = k + 2 := ⟨fuel - 2, by omega⟩
  unfold IsHexDigit at hh
  rcases hh with hd | hl
  · have : simpleFold lib h = h := by
      unfold simpleFold
      rw [if_pos (by omega), if_neg (by omega), if_neg (by omega), if_neg (by omega),
        if_neg (by omega)]
    rw [this, foldWalk, if_neg (by simp)]
  · have h1 : simpleFold lib h = Char.ofNat (h.toNat - 0x20) := by
      unfold simpleFold
      rw [if_pos (by omega), if_neg (by omega), if_neg (by omega), if_neg (by omega),
        if_pos (by omega)]
    have h2 : (Char.ofNat (h.toNat - 0x20)).toNat = h.toNat - 0x20 :=
      toNat_ofNat_of_lt _ (by omega)
    have h3 : simpleFold lib (Char.ofNat (h.toNat - 0x20)) = h := by
      unfold simpleFold
      rw [h2, if_pos (by omega), if_pos (by omega)]
      have : h.toNat - 0x20 + 0x20 = h.toNat := by omega
      rw [this, Char.ofNat_toNat]
    have hne : Char.ofNat (h.toNat - 0x20) ≠ h := by
      rw [Ne, char_eq_iff_toNat, h2]; omega
    rw [h1, foldWalk, if_pos ⟨hne, by rw [h2]; omega⟩, h3, foldWalk, if_neg (by simp)]

theorem runeEqualFold_hex (lib : GoLib) (h c : Char) (hh : IsHexDigit h) :
    runeEqualFold lib h c = true ↔ lowerLetter c = h := by
  unfold runeEqualFold
  by_cases hch : c = h
  · subst hch
    simp [lowerLetter_hex c hh]
  · rw [if_neg hch]
    have hne : c.toNat ≠ h.toNat := fun e => hch ((char_eq_iff_toNat c h).2 e)
    have hh' := hh
    unfold IsHexDigit at hh
    by_cases hlt : c.toNat < h.toNat
    · simp only [if_pos hlt]
      rw [if_pos (by omega)]
      unfold lowerLetter
      by_cases hu : 0x41 ≤ c.toNat ∧ c.toNat ≤ 0x5A
      · rw [if_pos hu, char_eq_iff_toNat, toNat_ofNat_of_lt _ (by omega)]
        simp only [decide_eq_true_eq]
        constructor
        · rintro ⟨-, -, e⟩; omega
        · intro e; omega
      · rw [if_neg hu]
        simp only [decide_eq_true_eq]
        constructor
        · rintro ⟨a, b, -⟩; exact absurd ⟨a, b⟩ hu
        · intro e; exact absurd e hch
    · simp only [if_neg hlt]
      have hlo : lowerLetter c ≠ h := by
        unfold lowerLetter
        by_cases hu : 0x41 ≤ c.toNat ∧ c.toNat ≤ 0x5A
        · rw [if_pos hu, Ne, char_eq_iff_toNat, toNat_ofNat_of_lt _ (by omega)]; omega
        · rw [if_neg hu]; exact hch
      by_cases hasc : c.toNat < 0x80
      · rw [if_pos hasc]
        simp only [decide_eq_true_eq]
        constructor
        · rintro ⟨a, b, e⟩; omega
        · intro e; exact absurd e hlo
      · rw [if_neg hasc, foldWalk_hex lib h c hh' (by omega) runeCount (by decide)]
        simp only [decide_eq_true_eq]
        constructor
        · intro e; exact absurd e.symm hch
        · intro e; exact absurd e hlo

theorem equalFoldRunes_hex (lib : GoLib) :
    ∀ (e t : List Char), (∀ c ∈ e, IsHexDigit c) →
      (equalFoldRunes lib e t = true ↔ t.map lowerLetter = e)
  | [], [], _ => by simp [equalFoldRunes]
  | [], _ :: _, _ => by simp [equalFoldRunes]
  | _ :: _, [], _ => by simp [equalFoldRunes]
  | h :: e, c :: t, he => by
    have ih := equalFoldRunes_hex lib e t (fun x hx => he x (List.mem_cons_of_mem _ hx))
    have hh := runeEqualFold_hex lib h c (he h (List.mem_cons_self _ _))
    unfold equalFoldRunes
    by_cases hr : runeEqualFold lib h c = true
    · rw [if_pos hr, ih]
      simp [hh.1 hr]
    · rw [if_neg hr]
      simp only [List.map_cons, List.cons.injEq, false_iff_true, Bool.false_eq_true, false_iff]
      intro ⟨a, _⟩
      exact hr (hh.2 a)

theorem map_lowerLetter_hex (e : List Char) (he : ∀ c ∈ e, IsHexDigit c) :
    e.map lowerLetter = e := by
  induction e with
  | nil => rfl
  | cons h e ih =>
    rw [List.map_cons, lowerLetter_hex h (he h (List.mem_cons_self _ _)),
      ih (fun x hx => he x (List.mem_cons_of_mem _ hx))]

theorem lower_upperLetter_hex (h : Char) (hh : IsHexDigit h) :
    lowerLetter (upperLetter h) = h := by
  unfold IsHexDigit at hh
  unfold upperLetter
  by_cases hl : 0x61 ≤ h.toNat ∧ h.toNat ≤ 0x7A
  · rw [if_pos hl]
    unfold lowerLetter
    have h2 : (Char.ofNat (h.toNat - 0x20)).toNat = h.toNat - 0x20 :=
      toNat_ofNat_of_lt _ (by omega)
    rw [h2, if_pos (by omega)]
    have : h.toNat - 0x20 + 0x20 = h.toNat := by omega
    rw [this, Char.ofNat_toNat]
  · rw [if_neg hl]
    unfold lowerLetter
    rw [if_neg (by omega)]

theorem ValidateToken_iff_lower (lib : GoLib) (R N S t : String) :
    ValidateToken lib R N S t = true ↔
      t.data.map lowerLetter = (GenerateToken lib R N S).data := by
  unfold ValidateToken EqualFold
  exact equalFoldRunes_hex lib _ _ (hexEncode_isHex _)

/-- C2: a candidate is accepted exactly when it equals the derived token up to
letter case; the derived token and its upper-cased form are accepted, and
"deadbeef" is rejected for the fixture inputs, whose upper-cased token is
accepted. -/
theorem ValidateToken_iff_equal_up_to_case (lib : GoLib) (R N S t : String) :
    (ValidateToken lib R N S t = true ↔ EqualUpToCase t (GenerateToken lib R N S)) ∧
    ValidateToken lib R N S (GenerateToken lib R N S) = true ∧
    ValidateToken lib R N S (upperCased (GenerateToken lib R N S)) = true ∧
    ValidateToken lib "1234564" "Alice" "oAQF6zsVq7xg3sd6"
      "1ADBBDA05794ED4157CCA81666F75B47" = true ∧
    ValidateToken lib "1234564" "Alice" "oAQF6zsVq7xg3sd6" "deadbeef" = false := by
  have hex : ∀ R N S : String, ∀ c ∈ (GenerateToken lib R N S).data, IsHexDigit c :=
    fun R N S => hexEncode_isHex _
  refine ⟨?_, ?_, ?_, ?_, ?_⟩
  · rw [ValidateToken_iff_lower]
    unfold EqualUpToCase
    rw [map_lowerLetter_hex _ (hex R N S)]
  · rw [ValidateToken_iff_lower]
    exact map_lowerLetter_hex _ (hex R N S)
  · rw [ValidateToken_iff_lower]
    simp only [upperCased, List.map_map]
    conv_rhs => rw [← List.map_id (GenerateToken lib R N S).data]
    apply List.map_congr_left
    intro c hc
    exact lower_upperLetter_hex c (hex R N S c hc)
  · rw [ValidateToken_iff_lower, token_fixture lib]
    decide
  · rw [← Bool.not_eq_true, ValidateToken_iff_lower, token_fixture lib]
    decide

/-! ## Outbound queue and broadcast -/

theorem Enqueue_of_full (c : Client) (p : Payload) (h : c.cap ≤ c.send.length) :
    c.Enqueue p = c := by
  unfold Client.Enqueue
  rw [if_neg (by omega)]

theorem Enqueue_of_room (c : Client) (p : Payload) (h : c.send.length < c.cap) :
    c.Enqueue p = { c with send := c.send ++ [p] } := by
  unfold Client.Enqueue
  rw [if_pos h]

theorem foldl_Enqueue_send (ps : List Payload) :
    ∀ c : Client, c.send.length + ps.length ≤ c.cap →
      ps.foldl Client.Enqueue c = { c with send := c.send ++ ps } := by
  induction ps with
  | nil => intro c _; simp
  | cons p ps ih =>
    intro c h
    simp only [List.length_cons] at h
    rw [List.foldl_cons, Enqueue_of_room c p (by omega), ih _ (by simp; omega)]
    simp

theorem writeLoop_drains (q : List Payload) :
    ∀ c : Client, c.send = q →
      Client.writeLoop c (List.replicate q.length (SelectCase.message true)) =
        { c with send := [], conn := { c.conn with written := c.conn.written ++ q } } := by
  induction q with
  | nil =>
    intro c h
    cases c
    simp_all [Client.writeLoop]
  | cons p q ih =>
    intro c h
    simp only [List.length_cons, List.replicate_succ, Client.writeLoop, h, if_true]
    rw [ih _ rfl]
    simp

/-- The step of the loop of `Broadcast`. -/
theorem foldl_enqueue (data : Payload) (exclude : Option ClientId) :
    ∀ (l : List ClientId) (s : State), l.Nodup →
      (l.foldl (fun st client => if exclude = some client then st else st.enqueue client data)
          s).room = s.room ∧
      ∀ x, (l.foldl (fun st client => if exclude = some client then st else st.enqueue client data)
          s).heap x =
        if x ∈ l ∧ exclude ≠ some x then (s.heap x).Enqueue data else s.heap x := by
  intro l
  induction l with
  | nil => intro s _; simp
  | cons a l ih =>
    intro s hnd
    rw [List.nodup_cons] at hnd
    obtain ⟨hal, hl⟩ := hnd
    rw [List.foldl_cons]
    obtain ⟨h1, h2⟩ := ih (if exclude = some a then s else s.enqueue a data) hl
    refine ⟨?_, ?_⟩
    · rw [h1]; split <;> rfl
    · intro x
      rw [h2 x]
      by_cases hxa : x = a
      · subst hxa
        by_cases hex : exclude = some x
        · simp [hal, hex]
        · simp [hal, hex, State.enqueue]
      · have hh : (if exclude = some a then s else s.enqueue a data).heap x = s.heap x := by
          split
          · rfl
          · simp [State.enqueue, Function.update_noteq hxa]
        rw [hh]
        simp [hxa]

theorem Broadcast_spec (s : State) (msg : OutboundMessage) (exclude : Option ClientId)
    (now : Time) (hnd : s.room.clients.Nodup) :
    ∃ data, jsonMarshal (s.room.broadcastEnvelope msg now) = Except.ok data ∧
      (Room.Broadcast s msg exclude now).room = s.room ∧
      ∀ x, (Room.Broadcast s msg exclude now).heap x =
        if x ∈ s.room.clients ∧ exclude ≠ some x then (s.heap x).Enqueue data else s.heap x := by
  refine ⟨_, rfl, ?_⟩
  unfold Room.Broadcast
  exact foldl_enqueue _ exclude s.room.clients s hnd

/-- C5: on a queue that holds as many items as its capacity, Enqueue leaves the
client (queue contents and size) unchanged; on a queue with room it appends the
payload at the tail, so payloads enqueued in a row are queued, and written to
the connection by the write loop, in the order they were enqueued. -/
theorem Enqueue_drops_when_full_else_appends (c : Client) (p : Payload) (ps : List Payload) :
    (c.cap ≤ c.send.length → c.Enqueue p = c) ∧
    (c.send.length < c.cap → c.Enqueue p = { c with send := c.send ++ [p] }) ∧
    (c.send.length + ps.length ≤ c.cap →
      (ps.foldl Client.Enqueue c).send = c.send ++ ps ∧
      (Client.writeLoop (ps.foldl Client.Enqueue c)
          (List.replicate (c.send ++ ps).length (SelectCase.message true))).conn.written =
        c.conn.written ++ (c.send ++ ps)) := by
  refine ⟨Enqueue_of_full c p, Enqueue_of_room c p, fun h => ?_⟩
  rw [foldl_Enqueue_send ps c h]
  refine ⟨rfl, ?_⟩
  rw [writeLoop_drains (c.send ++ ps) _ rfl]

theorem Enqueue_drops_when_full_else_appends_witness :
    (full.Enqueue [] = full) ∧
    (halfFull.Enqueue [] = { halfFull with send := halfFull.send ++ [[]] }) ∧
    ((List.foldl Client.Enqueue halfFull [[]]).send = halfFull.send ++ [[]]) :=
  ⟨(Enqueue_drops_when_full_else_appends full [] []).1 (by decide),
   (Enqueue_drops_when_full_else_appends halfFull [] []).2.1 (by decide),
   ((Enqueue_drops_when_full_else_appends halfFull [] [[]]).2.2 (by decide)).1⟩

/-- C4: Broadcast with the connection A excluded leaves A's queue unchanged and
appends one and the same serialized payload to the queue of every other
registered connection whose queue was not full; with members A and B and empty
queues with room, A's queue stays empty and B's holds exactly one item. -/
theorem Broadcast_excludes_sender (s : State) (msg : OutboundMessage) (A : ClientId)
    (now : Time) (hnd : s.room.clients.Nodup) :
    (Room.Broadcast s msg (some A) now).heap A = s.heap A ∧
    (∃ data, jsonMarshal (s.room.broadcastEnvelope msg now) = Except.ok data ∧
      ∀ B, B ≠ A → B ∈ s.room.clients → (s.heap B).send.length < (s.heap B).cap →
        ((Room.Broadcast s msg (some A) now).heap B).send = (s.heap B).send ++ [data]) ∧
    (∀ B, B ≠ A → (∀ x, x ∈ s.room.clients ↔ x = A ∨ x = B) →
      (s.heap A).send = [] → (s.heap B).send = [] → 0 < (s.heap B).cap →
      ((Room.Broadcast s msg (some A) now).heap A).send = [] ∧
      ((Room.Broadcast s msg (some A) now).heap B).send.length = 1) := by
  obtain ⟨data, hd, -, hheap⟩ := Broadcast_spec s msg (some A) now hnd
  have hA : (Room.Broadcast s msg (some A) now).heap A = s.heap A := by
    rw [hheap A]; simp
  have hB : ∀ B, B ≠ A → B ∈ s.room.clients → (s.heap B).send.length < (s.heap B).cap →
      ((Room.Broadcast s msg (some A) now).heap B).send = (s.heap B).send ++ [data] := by
    intro B hBA hB hroom
    rw [hheap B, if_pos ⟨hB, fun e => hBA (Option.some.inj e).symm⟩, Enqueue_of_room _ _ hroom]
  refine ⟨hA, ⟨data, hd, hB⟩, ?_⟩
  intro B hBA hmem hAe hBe hcap
  refine ⟨by rw [hA, hAe], ?_⟩
  rw [hB B hBA ((hmem B).2 (Or.inr rfl)) (by rw [hBe]; exact hcap), hBe]
  rfl

theorem Broadcast_excludes_sender_witness :
    aliceAndBob.room.clients.Nodup ∧
    ((Room.Broadcast aliceAndBob { Body := "hello", Sender := "alice" } (some 1) 0).heap 1).send
      = [] ∧
    ((Room.Broadcast aliceAndBob { Body := "hello", Sender := "alice" } (some 1) 0).heap 2).send.length
      = 1 :=
  ⟨by decide,
   ((Broadcast_excludes_sender aliceAndBob { Body := "hello", Sender := "alice" } 1 0
      (by decide)).2.2 2 (by decide)
      (by intro x; simp [aliceAndBob, Room.Register, NewRoom]; exact or_comm)
      (by decide) (by decide) (by decide))⟩

/-! ## The envelope of a broadcast -/

/-- C10: the envelope Broadcast builds has kind "system" and sender "system"
when the System flag is set, whatever Sender holds, and kind "message" with the
message's Sender otherwise; its body is the message's Body in both cases; its
serialization is what the loop enqueues; and BroadcastSystem is Broadcast of
the formatted text with the System flag set and no connection excluded. -/
theorem Broadcast_envelope_kind_and_sender (lib : GoLib) (s : State) (msg : OutboundMessage)
    (exclude : Option ClientId) (now : Time) (format : String) (args : List String) :
    (s.room.broadcastEnvelope msg now).Type_ = (if msg.System then "system" else "message") ∧
    (s.room.broadcastEnvelope msg now).Sender = (if msg.System then "system" else msg.Sender) ∧
    (s.room.broadcastEnvelope msg now).Body = msg.Body ∧
    (∃ data, jsonMarshal (s.room.broadcastEnvelope msg now) = Except.ok data ∧
      Room.Broadcast s msg exclude now =
        s.room.clients.foldl
          (fun st client => if exclude = some client then st else st.enqueue client data) s) ∧
    Room.BroadcastSystem lib s format args now =
      Room.Broadcast s { Body := lib.sprintf format args, Sender := "", System := true } none now := by
  refine ⟨?_, ?_, ?_, ⟨_, rfl, rfl⟩, rfl⟩
  · unfold Room.broadcastEnvelope; cases msg.System <;> rfl
  · unfold Room.broadcastEnvelope; cases msg.System <;> rfl
  · unfold Room.broadcastEnvelope; cases msg.System <;> rfl

/-! ## Handshake -/

theorem trimRight_eq_nil (p : Char → Bool) :
    ∀ l : List Char, trimRight p l = [] ↔ ∀ c ∈ l, p c = true
  | [] => by simp [trimRight]
  | c :: cs => by
    have ih := trimRight_eq_nil p cs
    unfold trimRight
    cases h : trimRight p cs with
    | nil =>
      have hcs := ih.1 h
      by_cases hc : p c = true
      · simp only [hc, if_true, List.mem_cons, forall_eq_or_imp, true_and, true_iff]
        exact hcs
      · simp [hc]
    | cons r rs =>
      have hcs : ¬ ∀ x ∈ cs, p x = true := fun a => by
        have := ih.2 a
        rw [h] at this
        exact List.cons_ne_nil _ _ this
      simp only [List.mem_cons, forall_eq_or_imp, false_iff_true, reduceCtorEq, false_iff]
      exact fun a => hcs a.2

theorem dropWhile_head (p : Char → Bool) :
    ∀ l : List Char, l.dropWhile p = [] ∨ ∃ c cs, l.dropWhile p = c :: cs ∧ p c = false
  | [] => Or.inl rfl
  | c :: cs => by
    by_cases hc : p c = true
    · rw [List.dropWhile_cons_of_pos hc]
      exact dropWhile_head p cs
    · right
      refine ⟨c, cs, ?_, by simpa using hc⟩
      rw [List.dropWhile_cons_of_neg hc]

theorem TrimSpace_eq_empty_iff (name : String) : TrimSpace name = "" ↔ Blank name := by
  unfold TrimSpace Blank
  rw [String.ext_iff]
  show trimRight isSpace (List.dropWhile isSpace name.data) = [] ↔ _
  rw [trimRight_eq_nil]
  constructor
  · intro h
    rcases dropWhile_head isSpace name.data with h0 | ⟨c, cs, h1, h2⟩
    · simpa [List.dropWhile_eq_nil_iff] using h0
    · have := h c (by rw [h1]; exact List.mem_cons_self _ _)
      rw [h2] at this
      exact absurd this (by decide)
  · intro h c hc
    exact h c ((List.dropWhile_sublist isSpace).subset hc)

theorem ReadJSON_cons (s : State) (c : ClientId) (r : ReadResult) (rest : List ReadResult)
    (hin : (s.heap c).conn.inbound = r :: rest) :
    Client.ReadJSON s c =
      (r, { s with heap := Function.update s.heap c { (s.heap c) with conn := { (s.heap c).conn with inbound := rest } } }) := by
  unfold Client.ReadJSON
  rw [hin]

theorem handshake_error (lib : GoLib) (s : State) (c : ClientId) (env : Envelope)
    (rest : List ReadResult) (hin : (s.heap c).conn.inbound = ReadResult.ok env :: rest)
    (hbad : env.Type_ ≠ MessageTypeJoin ∨ TrimSpace env.ChatID ≠ s.room.chatID ∨
      TrimSpace env.Name = "") :
    ∃ err, Client.handshake lib s c = (some err, (Client.ReadJSON s c).2) := by
  unfold Client.handshake
  rw [ReadJSON_cons s c _ rest hin]
  simp only [Room.ChatID]
  by_cases h1 : env.Type_ ≠ MessageTypeJoin
  · rw [if_pos h1]; exact ⟨_, rfl⟩
  · rw [if_neg h1]
    by_cases h2 : TrimSpace env.ChatID ≠ s.room.chatID
    · rw [if_pos h2]; exact ⟨_, rfl⟩
    · rw [if_neg h2]
      have h3 : TrimSpace env.Name = "" := by
        rcases hbad with h | h | h
        · exact absurd h h1
        · exact absurd h h2
        · exact h
      rw [if_pos h3]; exact ⟨_, rfl⟩

theorem Serve_of_handshake_error (lib : GoLib) (o : Oracle) (s s1 : State) (c : ClientId)
    (err : String) (h : Client.handshake lib s c = (some err, s1)) :
    Client.Serve lib o s c = Client.closeConn (Client.sendError s1 c err) c := by
  unfold Client.Serve
  rw [h]

theorem failed_handshake_frame (s : State) (c : ClientId) (r : ReadResult)
    (rest : List ReadResult) (hin : (s.heap c).conn.inbound = r :: rest) (err : String) :
    ∃ data, jsonMarshal { Type_ := MessageTypeError, Error := err } = Except.ok data ∧
      (Client.closeConn (Client.sendError (Client.ReadJSON s c).2 c err) c).room = s.room ∧
      (∀ d, d ≠ c →
        (Client.closeConn (Client.sendError (Client.ReadJSON s c).2 c err) c).heap d = s.heap d) ∧
      ((Client.closeConn (Client.sendError (Client.ReadJSON s c).2 c err) c).heap c).name =
        (s.heap c).name ∧
      ((Client.closeConn (Client.sendError (Client.ReadJSON s c).2 c err) c).heap c).token =
        (s.heap c).token ∧
      ((Client.closeConn (Client.sendError (Client.ReadJSON s c).2 c err) c).heap c).send =
        ((s.heap c).Enqueue data).send := by
  refine ⟨_, rfl, ?_⟩
  rw [ReadJSON_cons s c r rest hin]
  refine ⟨rfl, ?_, ?_, ?_, ?_⟩
  · intro d hd
    simp [Client.closeConn, Client.sendError, Client.sendEnvelope, jsonMarshal, State.enqueue,
      Function.update_noteq hd]
  · simp only [Client.closeConn, Client.sendError, Client.sendEnvelope, jsonMarshal,
      State.enqueue, Function.update_same, Client.Enqueue]
    split <;> rfl
  · simp only [Client.closeConn, Client.sendError, Client.sendEnvelope, jsonMarshal,
      State.enqueue, Function.update_same, Client.Enqueue]
    split <;> rfl
  · simp only [Client.closeConn, Client.sendError, Client.sendEnvelope, jsonMarshal,
      State.enqueue, Function.update_same, Client.Enqueue]
    split <;> rfl

theorem failed_handshake_summary (lib : GoLib) (o : Oracle) (s : State) (c : ClientId)
    (env : Envelope) (rest : List ReadResult)
    (hin : (s.heap c).conn.inbound = ReadResult.ok env :: rest)
    (hbad : env.Type_ ≠ MessageTypeJoin ∨ TrimSpace env.ChatID ≠ s.room.chatID ∨
      TrimSpace env.Name = "") :
    (∃ err, (Client.handshake lib s c).1 = some err ∧
      Client.Serve lib o s c =
        Client.closeConn (Client.sendError (Client.handshake lib s c).2 c err) c ∧
      ∃ data, jsonMarshal { Type_ := MessageTypeError, Error := err } = Except.ok data ∧
        ((Client.Serve lib o s c).heap c).send = ((s.heap c).Enqueue data).send) ∧
    ((Client.handshake lib s c).2.heap c).name = (s.heap c).name ∧
    ((Client.handshake lib s c).2.heap c).token = (s.heap c).token ∧
    (Client.Serve lib o s c).room = s.room ∧
    (∀ d, d ≠ c → (Client.Serve lib o s c).heap d = s.heap d) ∧
    ((Client.Serve lib o s c).heap c).name = (s.heap c).name ∧
    ((Client.Serve lib o s c).heap c).token = (s.heap c).token := by
  obtain ⟨err, herr⟩ := handshake_error lib s c env rest hin hbad
  obtain ⟨data, hdata, hroom, hothers, hname, htoken, hsend⟩ :=
    failed_handshake_frame s c _ rest hin err
  have hserve := Serve_of_handshake_error lib o s _ c err herr
  rw [hserve, herr]
  refine ⟨⟨err, rfl, rfl, data, hdata, hsend⟩, ?_, ?_, hroom, hothers, hname, htoken⟩
  · rw [ReadJSON_cons s c _ rest hin]; simp
  · rw [ReadJSON_cons s c _ rest hin]; simp

/-- C6 (amended): when the room id of the first envelope, trimmed of white
space, differs from the room's configured id, the handshake returns an error and
leaves the connection's name and token as they were, and Serve only enqueues
the error envelope for the connection and closes it: the room's membership and
every other client are unchanged. -/
theorem handshake_rejects_other_room_id (lib : GoLib) (o : Oracle) (s : State) (c : ClientId)
    (env : Envelope) (rest : List ReadResult)
    (hin : (s.heap c).conn.inbound = ReadResult.ok env :: rest)
    (hid : TrimSpace env.ChatID ≠ s.room.chatID) :
    (∃ err, (Client.handshake lib s c).1 = some err ∧
      Client.Serve lib o s c =
        Client.closeConn (Client.sendError (Client.handshake lib s c).2 c err) c ∧
      ∃ data, jsonMarshal { Type_ := MessageTypeError, Error := err } = Except.ok data ∧
        ((Client.Serve lib o s c).heap c).send = ((s.heap c).Enqueue data).send) ∧
    ((Client.handshake lib s c).2.heap c).name = (s.heap c).name ∧
    ((Client.handshake lib s c).2.heap c).token = (s.heap c).token ∧
    (Client.Serve lib o s c).room = s.room ∧
    (∀ d, d ≠ c → (Client.Serve lib o s c).heap d = s.heap d) ∧
    ((Client.Serve lib o s c).heap c).name = (s.heap c).name ∧
    ((Client.Serve lib o s c).heap c).token = (s.heap c).token :=
  failed_handshake_summary lib o s c env rest hin (Or.inr (Or.inl hid))

theorem handshake_rejects_other_room_id_witness :
    ((lobby [ReadResult.ok (joinEnvelope "999" "alice")]).heap 1).conn.inbound =
      [ReadResult.ok (joinEnvelope "999" "alice")] ∧
    TrimSpace (joinEnvelope "999" "alice").ChatID ≠
      (lobby [ReadResult.ok (joinEnvelope "999" "alice")]).room.chatID ∧
    (Client.Serve GoLib.plain Oracle.still (lobby [ReadResult.ok (joinEnvelope "999" "alice")])
      1).room = (lobby [ReadResult.ok (joinEnvelope "999" "alice")]).room :=
  ⟨by decide, by decide,
   (handshake_rejects_other_room_id GoLib.plain Oracle.still
      (lobby [ReadResult.ok (joinEnvelope "999" "alice")]) 1 (joinEnvelope "999" "alice") []
      (by decide) (by decide)).2.2.2.1⟩

/-- C6, as stated, fails: a join envelope whose room id " 1234564 " differs from
the configured "1234564" only by surrounding white space passes the handshake,
which sets the name, and Serve registers the connection: bob receives the
joined and the left notice. -/
theorem handshake_accepts_padded_room_id :
    (joinEnvelope " 1234564 " "alice").ChatID ≠
      (lobby [ReadResult.ok (joinEnvelope " 1234564 " "alice")]).room.chatID ∧
    (Client.handshake GoLib.plain
      (lobby [ReadResult.ok (joinEnvelope " 1234564 " "alice")]) 1).1 = none ∧
    ((Client.handshake GoLib.plain
      (lobby [ReadResult.ok (joinEnvelope " 1234564 " "alice")]) 1).2.heap 1).name = "alice" ∧
    ((Client.Serve GoLib.plain Oracle.still
      (lobby [ReadResult.ok (joinEnvelope " 1234564 " "alice")]) 1).heap 2).send =
      [[("type", JsonValue.str "system"), ("chatId", JsonValue.str "1234564"),
        ("body", JsonValue.str "alice joined"), ("sender", JsonValue.str "system"),
        ("timestamp", JsonValue.time 0)],
       [("type", JsonValue.str "system"), ("chatId", JsonValue.str "1234564"),
        ("body", JsonValue.str "alice left"), ("sender", JsonValue.str "system"),
        ("timestamp", JsonValue.time 0)]] := by
  refine ⟨by decide, by decide, by decide, by decide⟩

/-- C7: a first envelope that is not a join, or a join whose name is empty or
all white space, makes the handshake return an error and leave the connection's
name and token as they were; Serve then only enqueues the error envelope for
the connection and closes it: it does not register the connection, and no
other client's queue receives anything (no joined or left notice). -/
theorem handshake_rejects_non_join_and_blank_name (lib : GoLib) (o : Oracle) (s : State)
    (c : ClientId) (env : Envelope) (rest : List ReadResult)
    (hin : (s.heap c).conn.inbound = ReadResult.ok env :: rest)
    (hbad : env.Type_ ≠ MessageTypeJoin ∨ (env.Type_ = MessageTypeJoin ∧ Blank env.Name)) :
    (∃ err, (Client.handshake lib s c).1 = some err ∧
      Client.Serve lib o s c =
        Client.closeConn (Client.sendError (Client.handshake lib s c).2 c err) c ∧
      ∃ data, jsonMarshal { Type_ := MessageTypeError, Error := err } = Except.ok data ∧
        ((Client.Serve lib o s c).heap c).send = ((s.heap c).Enqueue data).send) ∧
    ((Client.handshake lib s c).2.heap c).name = (s.heap c).name ∧
    ((Client.handshake lib s c).2.heap c).token = (s.heap c).token ∧
    (Client.Serve lib o s c).room = s.room ∧
    (∀ d, d ≠ c → (Client.Serve lib o s c).heap d = s.heap d) ∧
    ((Client.Serve lib o s c).heap c).name = (s.heap c).name ∧
    ((Client.Serve lib o s c).heap c).token = (s.heap c).token := by
  apply failed_handshake_summary lib o s c env rest hin
  rcases hbad with h | ⟨-, h⟩
  · exact Or.inl h
  · exact Or.inr (Or.inr ((TrimSpace_eq_empty_iff _).2 h))

theorem handshake_rejects_non_join_and_blank_name_witness :
    ((lobby [ReadResult.ok (joinEnvelope "1234564" " \t")]).heap 1).conn.inbound =
      [ReadResult.ok (joinEnvelope "1234564" " \t")] ∧
    ((Client.Serve GoLib.plain Oracle.still
      (lobby [ReadResult.ok (joinEnvelope "1234564" " \t")]) 1).heap 2) =
      (lobby [ReadResult.ok (joinEnvelope "1234564" " \t")]).heap 2 ∧
    ((Client.Serve GoLib.plain Oracle.still
      (lobby [ReadResult.ok { Type_ := MessageTypeMessage, Body := "hi" }]) 1).heap 2) =
      (lobby [ReadResult.ok { Type_ := MessageTypeMessage, Body := "hi" }]).heap 2 :=
  ⟨by decide,
   ((handshake_rejects_non_join_and_blank_name GoLib.plain Oracle.still
      (lobby [ReadResult.ok (joinEnvelope "1234564" " \t")]) 1 (joinEnvelope "1234564" " \t") []
      (by decide) (Or.inr ⟨by decide, by unfold Blank; decide⟩)).2.2.2.2.1 2 (by decide)),
   ((handshake_rejects_non_join_and_blank_name GoLib.plain Oracle.still
      (lobby [ReadResult.ok { Type_ := MessageTypeMessage, Body := "hi" }]) 1
      { Type_ := MessageTypeMessage, Body := "hi" } []
      (by decide) (Or.inl (by decide))).2.2.2.2.1 2 (by decide))⟩

/-! ## Message handling -/

theorem sendError_frame (s : State) (c : ClientId) (err : String) :
    ∃ data, jsonMarshal { Type_ := MessageTypeError, Error := err } = Except.ok data ∧
      (Client.sendError s c err).room = s.room ∧
      (∀ d, d ≠ c → (Client.sendError s c err).heap d = s.heap d) ∧
      (Client.sendError s c err).heap c = (s.heap c).Enqueue data := by
  refine ⟨_, rfl, rfl, ?_, ?_⟩
  · intro d hd
    simp [Client.sendError, Client.sendEnvelope, jsonMarshal, State.enqueue,
      Function.update_noteq hd]
  · simp [Client.sendError, Client.sendEnvelope, jsonMarshal, State.enqueue]

theorem Enqueue_name_token (cl : Client) (p : Payload) :
    (cl.Enqueue p).name = cl.name ∧ (cl.Enqueue p).token = cl.token := by
  unfold Client.Enqueue
  split <;> exact ⟨rfl, rfl⟩

theorem handleChatMessage_reject (lib : GoLib) (s : State) (c : ClientId) (env : Envelope)
    (now : Time)
    (hbad : TrimSpace env.Body = "" ∨ env.Token = "" ∨
      ValidateToken lib s.room.chatID (s.heap c).name s.room.salt env.Token = false) :
    ∃ text, Client.handleChatMessage lib s c env now = Client.sendError s c text := by
  unfold Client.handleChatMessage
  simp only [Room.ChatID, Room.Salt]
  by_cases h1 : TrimSpace env.Body = ""
  · rw [if_pos h1]; exact ⟨_, rfl⟩
  · rw [if_neg h1]
    by_cases h2 : env.Token = ""
    · rw [if_pos h2]; exact ⟨_, rfl⟩
    · rw [if_neg h2]
      have h3 : ValidateToken lib s.room.chatID (s.heap c).name s.room.salt env.Token = false := by
        rcases hbad with h | h | h
        · exact absurd h h1
        · exact absurd h h2
        · exact h
      rw [if_pos (by rw [h3]; rfl)]
      exact ⟨_, rfl⟩

theorem handleChatMessage_accept (lib : GoLib) (s : State) (c : ClientId) (env : Envelope)
    (now : Time) (h1 : TrimSpace env.Body ≠ "") (h2 : env.Token ≠ "")
    (h3 : ValidateToken lib s.room.chatID (s.heap c).name s.room.salt env.Token = true) :
    Client.handleChatMessage lib s c env now =
      Room.Broadcast s { Body := TrimSpace env.Body, Sender := (s.heap c).name } (some c) now := by
  unfold Client.handleChatMessage
  simp only [Room.ChatID, Room.Salt]
  rw [if_neg h1, if_neg h2, if_neg (by rw [h3]; decide)]

/-- C8: a message envelope whose trimmed body is empty, whose token is empty, or
whose token fails ValidateToken is not broadcast: the room and every other
client are unchanged, the sender keeps its name and token, and the only effect
is Enqueue of an error envelope on the sender; a following valid message from
the same connection is handed to Broadcast with the sender excluded and reaches
every other member whose queue has room. -/
theorem handleChatMessage_rejects_without_broadcast (lib : GoLib) (s : State) (c : ClientId)
    (env : Envelope) (now : Time)
    (hbad : TrimSpace env.Body = "" ∨ env.Token = "" ∨
      ValidateToken lib s.room.chatID (s.heap c).name s.room.salt env.Token = false) :
    (∃ text data, jsonMarshal { Type_ := MessageTypeError, Error := text } = Except.ok data ∧
      (Client.handleChatMessage lib s c env now).heap c = (s.heap c).Enqueue data) ∧
    (Client.handleChatMessage lib s c env now).room = s.room ∧
    (∀ d, d ≠ c → (Client.handleChatMessage lib s c env now).heap d = s.heap d) ∧
    ((Client.handleChatMessage lib s c env now).heap c).name = (s.heap c).name ∧
    ((Client.handleChatMessage lib s c env now).heap c).token = (s.heap c).token ∧
    (∀ (env2 : Envelope) (now2 : Time), TrimSpace env2.Body ≠ "" → env2.Token ≠ "" →
      ValidateToken lib s.room.chatID (s.heap c).name s.room.salt env2.Token = true →
      Client.handleChatMessage lib (Client.handleChatMessage lib s c env now) c env2 now2 =
        Room.Broadcast (Client.handleChatMessage lib s c env now)
          { Body := TrimSpace env2.Body, Sender := (s.heap c).name } (some c) now2 ∧
      (s.room.clients.Nodup →
        ∃ data2,
          jsonMarshal (s.room.broadcastEnvelope
            { Body := TrimSpace env2.Body, Sender := (s.heap c).name } now2) = Except.ok data2 ∧
          ∀ d, d ∈ s.room.clients → d ≠ c → (s.heap d).send.length < (s.heap d).cap →
            ((Client.handleChatMessage lib (Client.handleChatMessage lib s c env now) c env2
              now2).heap d).send = (s.heap d).send ++ [data2])) := by
  obtain ⟨text, htext⟩ := handleChatMessage_reject lib s c env now hbad
  obtain ⟨data, hdata, hroom, hothers, hself⟩ := sendError_frame s c text
  rw [htext]
  have hname : ((Client.sendError s c text).heap c).name = (s.heap c).name := by
    rw [hself]; exact (Enqueue_name_token _ _).1
  have htoken : ((Client.sendError s c text).heap c).token = (s.heap c).token := by
    rw [hself]; exact (Enqueue_name_token _ _).2
  refine ⟨⟨text, data, hdata, hself⟩, hroom, hothers, hname, htoken, ?_⟩
  intro env2 now2 h1 h2 h3
  have hacc := handleChatMessage_accept lib (Client.sendError s c text) c env2 now2 h1 h2
    (by rw [hroom, hname]; exact h3)
  rw [hname] at hacc
  refine ⟨hacc, fun hnd => ?_⟩
  obtain ⟨data2, hd2, -, hheap⟩ := Broadcast_spec (Client.sendError s c text)
    { Body := TrimSpace env2.Body, Sender := (s.heap c).name } (some c) now2
    (by rw [hroom]; exact hnd)
  rw [hroom] at hd2 hheap
  refine ⟨data2, hd2, ?_⟩
  intro d hd hdc hcap
  rw [hacc, hheap d, if_pos ⟨hd, fun e => hdc (Option.some.inj e).symm⟩, hothers d hdc,
    Enqueue_of_room _ _ hcap]

theorem handleChatMessage_rejects_without_broadcast_witness :
    TrimSpace ({ Type_ := MessageTypeMessage, Body := " ", Token := "x" } : Envelope).Body = "" ∧
    (Client.handleChatMessage GoLib.plain aliceAndBob 1
      { Type_ := MessageTypeMessage, Body := " ", Token := "x" } 0).heap 2 = aliceAndBob.heap 2 ∧
    (Client.handleChatMessage GoLib.plain aliceAndBob 1
      { Type_ := MessageTypeMessage, Body := " ", Token := "x" } 0).room = aliceAndBob.room :=
  ⟨by decide,
   (handleChatMessage_rejects_without_broadcast GoLib.plain aliceAndBob 1
      { Type_ := MessageTypeMessage, Body := " ", Token := "x" } 0
      (Or.inl (by decide))).2.2.1 2 (by decide),
   (handleChatMessage_rejects_without_broadcast GoLib.plain aliceAndBob 1
      { Type_ := MessageTypeMessage, Body := " ", Token := "x" } 0
      (Or.inl (by decide))).2.1⟩

/-! ## From the handshake to a broadcast message -/

theorem trimRight_idem (p : Char → Bool) :
    ∀ l : List Char, trimRight p (trimRight p l) = trimRight p l
  | [] => rfl
  | c :: cs => by
    have ih := trimRight_idem p cs
    rw [trimRight]
    cases h : trimRight p cs with
    | nil =>
      by_cases hc : p c = true
      · simp [hc, trimRight]
      · simp [hc, trimRight]
    | cons r rs =>
      rw [h] at ih
      simp only
      rw [trimRight, ih]

theorem trimRight_cons_of_not (p : Char → Bool) (c : Char) (cs : List Char)
    (hc : p c = false) : ∃ rest, trimRight p (c :: cs) = c :: rest := by
  rw [trimRight]
  cases trimRight p cs with
  | nil => exact ⟨[], by simp [hc]⟩
  | cons r rs => exact ⟨r :: rs, rfl⟩

theorem TrimSpace_idem (s : String) : TrimSpace (TrimSpace s) = TrimSpace s := by
  unfold TrimSpace
  rw [String.ext_iff]
  show trimRight isSpace (List.dropWhile isSpace (trimRight isSpace (List.dropWhile isSpace s.data)))
    = trimRight isSpace (List.dropWhile isSpace s.data)
  rcases dropWhile_head isSpace s.data with h0 | ⟨c, cs, h1, h2⟩
  · rw [h0]; rfl
  · rw [h1]
    obtain ⟨rest, hrest⟩ := trimRight_cons_of_not isSpace c cs h2
    have hd : List.dropWhile isSpace (trimRight isSpace (c :: cs)) = trimRight isSpace (c :: cs) := by
      rw [hrest, List.dropWhile_cons_of_neg (by simp [h2])]
    rw [hd, trimRight_idem]

theorem GenerateToken_trim (lib : GoLib) (R N S : String) :
    GenerateToken lib R (TrimSpace N) S = GenerateToken lib R N S := by
  unfold GenerateToken
  rw [TrimSpace_idem]

theorem GenerateToken_ne_empty (lib : GoLib) (R N S : String) : GenerateToken lib R N S ≠ "" := by
  intro h
  have := congrArg String.data h
  simp [GenerateToken, hexEncode, md5Sum, leBytes] at this

theorem ValidateToken_self (lib : GoLib) (R N S : String) :
    ValidateToken lib R N S (GenerateToken lib R N S) = true := by
  rw [ValidateToken_iff_lower]
  exact map_lowerLetter_hex _ (hexEncode_isHex _)

theorem handshake_ok (lib : GoLib) (s : State) (c : ClientId) (env : Envelope)
    (rest : List ReadResult) (hin : (s.heap c).conn.inbound = ReadResult.ok env :: rest)
    (hok : (Client.handshake lib s c).1 = none) :
    ((Client.handshake lib s c).2.heap c).name = TrimSpace env.Name ∧
    ((Client.handshake lib s c).2.heap c).token =
      GenerateToken lib s.room.chatID (TrimSpace env.Name) s.room.salt ∧
    TrimSpace env.Name ≠ "" ∧ env.Type_ = MessageTypeJoin ∧
    TrimSpace env.ChatID = s.room.chatID := by
  unfold Client.handshake at hok ⊢
  rw [ReadJSON_cons s c _ rest hin] at hok ⊢
  simp only [Room.ChatID, Room.Salt] at hok ⊢
  by_cases h1 : env.Type_ ≠ MessageTypeJoin
  · rw [if_pos h1] at hok; exact absurd hok (by simp)
  · rw [if_neg h1] at hok ⊢
    by_cases h2 : TrimSpace env.ChatID ≠ s.room.chatID
    · rw [if_pos h2] at hok; exact absurd hok (by simp)
    · rw [if_neg h2] at hok ⊢
      by_cases h3 : TrimSpace env.Name = ""
      · rw [if_pos h3] at hok; exact absurd hok (by simp)
      · rw [if_neg h3]
        simp only [Function.update_same]
        exact ⟨trivial, trivial, h3, not_not.1 h1, not_not.1 h2⟩

/-- C9: when the handshake accepts a join envelope with name N, the
connection's token is GenerateToken(R, N, S) and its display name is N trimmed;
any later message envelope carrying that token with a non-blank body b is handed
to Broadcast with the sender excluded: the sender's queue is unchanged and every
other registered connection with room in its queue receives exactly one payload,
the message envelope with that display name as sender and b trimmed as body. -/
theorem accepted_join_then_message_reaches_others (lib : GoLib) (s : State) (c : ClientId)
    (env : Envelope) (rest : List ReadResult)
    (hin : (s.heap c).conn.inbound = ReadResult.ok env :: rest)
    (hok : (Client.handshake lib s c).1 = none) :
    ((Client.handshake lib s c).2.heap c).token =
      GenerateToken lib s.room.chatID env.Name s.room.salt ∧
    ((Client.handshake lib s c).2.heap c).name = TrimSpace env.Name ∧
    ∀ (later : State) (m : Envelope) (now : Time),
      later.room.chatID = s.room.chatID → later.room.salt = s.room.salt →
      (later.heap c).name = TrimSpace env.Name → later.room.clients.Nodup →
      m.Token = GenerateToken lib s.room.chatID env.Name s.room.salt →
      TrimSpace m.Body ≠ "" →
      Client.handleChatMessage lib later c m now =
        Room.Broadcast later { Body := TrimSpace m.Body, Sender := TrimSpace env.Name }
          (some c) now ∧
      (Client.handleChatMessage lib later c m now).heap c = later.heap c ∧
      ∃ data,
        jsonMarshal
          { Type_ := MessageTypeMessage, ChatID := s.room.chatID, Body := TrimSpace m.Body,
            Sender := TrimSpace env.Name, Timestamp := now } = Except.ok data ∧
        ∀ d, d ∈ later.room.clients → d ≠ c → (later.heap d).send.length < (later.heap d).cap →
          ((Client.handleChatMessage lib later c m now).heap d).send =
            (later.heap d).send ++ [data] := by
  obtain ⟨hname, htoken, -, -, -⟩ := handshake_ok lib s c env rest hin hok
  rw [GenerateToken_trim] at htoken
  refine ⟨htoken, hname, ?_⟩
  intro later m now hid hsalt hlname hnd hmtoken hbody
  have hacc := handleChatMessage_accept lib later c m now hbody
    (by rw [hmtoken]; exact GenerateToken_ne_empty _ _ _ _)
    (by rw [hid, hsalt, hlname, hmtoken, ← GenerateToken_trim lib _ env.Name]
        exact ValidateToken_self _ _ _ _)
  rw [hlname] at hacc
  obtain ⟨data, hd, -, hheap⟩ := Broadcast_spec later
    { Body := TrimSpace m.Body, Sender := TrimSpace env.Name } (some c) now hnd
  refine ⟨hacc, ?_, data, ?_, ?_⟩
  · rw [hacc, hheap c]; simp
  · rw [← hd, ← hid]; rfl
  · intro d hdm hdc hcap
    rw [hacc, hheap d, if_pos ⟨hdm, fun e => hdc (Option.some.inj e).symm⟩,
      Enqueue_of_room _ _ hcap]

theorem accepted_join_then_message_reaches_others_witness :
    (Client.handshake GoLib.plain
      (lobby [ReadResult.ok (joinEnvelope "1234564" "alice")]) 1).1 = none ∧
    (aliceJoined.heap 1).name = TrimSpace (joinEnvelope "1234564" "alice").Name ∧
    TrimSpace hiFromAlice.Body ≠ "" ∧
    (Client.handleChatMessage GoLib.plain aliceJoined 1 hiFromAlice 5).heap 1 =
      aliceJoined.heap 1 :=
  ⟨by decide, by decide, by decide,
   ((accepted_join_then_message_reaches_others GoLib.plain
      (lobby [ReadResult.ok (joinEnvelope "1234564" "alice")]) 1
      (joinEnvelope "1234564" "alice") [] (by decide) (by decide)).2.2
      aliceJoined hiFromAlice 5 (by decide) (by decide) (by decide) (by decide) rfl
      (by decide)).2.1⟩

/-! ## The terminal client -/

theorem sendMessage_of_token (c : wsClient) (token body : String) (h : c.token = some token)
    (hne : token ≠ "") :
    c.sendMessage body =
      ((match (c.conn.WriteJSON
          { Type_ := MessageTypeMessage, Token := token, Body := body, Sender := c.name }).1 with
        | some err => some ("write message: " ++ err)
        | none => none),
       { c with conn := (c.conn.WriteJSON { Type_ := MessageTypeMessage, Token := token, Body := body, Sender := c.name }).2 }) := by
  unfold wsClient.sendMessage
  rw [h]
  simp only [if_neg hne]
  unfold wsConn.WriteJSON
  cases c.conn.writeErr <;> rfl

/-- C11: without a stored non-empty token, sendMessage returns an error and
leaves the client and its connection as they were, for every body.  A token
envelope with a non-empty token makes handleEnvelope store it, and sendMessage
then calls WriteJSON once, with the message envelope carrying that token, the
body and the client's name as sender: a connection that accepts writes has
exactly that envelope appended and the result is nil.  A token envelope with an
empty token leaves the client, and so a token stored earlier, unchanged. -/
theorem sendMessage_requires_stored_token (c : wsClient) (env : Envelope) (body : String) :
    ((c.token = none ∨ c.token = some "") →
      (c.sendMessage body).1 = some "token not yet issued by server" ∧
      (c.sendMessage body).2 = c) ∧
    (env.Type_ = MessageTypeToken → env.Token ≠ "" →
      (c.handleEnvelope env).token = some env.Token ∧
      (c.handleEnvelope env).conn = c.conn ∧ (c.handleEnvelope env).name = c.name ∧
      ((c.handleEnvelope env).sendMessage body).2.conn =
        (c.conn.WriteJSON
          { Type_ := MessageTypeMessage, Token := env.Token, Body := body, Sender := c.name }).2 ∧
      (c.conn.writeErr = none →
        ((c.handleEnvelope env).sendMessage body).1 = none ∧
        ((c.handleEnvelope env).sendMessage body).2.conn.writes =
          c.conn.writes ++
            [{ Type_ := MessageTypeMessage, Token := env.Token, Body := body, Sender := c.name }])) ∧
    (env.Type_ = MessageTypeToken → env.Token = "" → c.handleEnvelope env = c) := by
  refine ⟨?_, ?_, ?_⟩
  · intro h
    unfold wsClient.sendMessage
    rcases h with h | h <;> rw [h] <;> exact ⟨rfl, rfl⟩
  · intro hty htok
    have hstore : c.handleEnvelope env = { c with token := some env.Token } := by
      unfold wsClient.handleEnvelope
      rw [if_pos hty, if_neg htok]
    have hsend := sendMessage_of_token (c.handleEnvelope env) env.Token body
      (by rw [hstore]) htok
    rw [hsend, hstore]
    refine ⟨rfl, rfl, rfl, rfl, ?_⟩
    intro hw
    simp [wsConn.WriteJSON, hw]
  · intro hty htok
    unfold wsClient.handleEnvelope
    rw [if_pos hty, if_pos htok]

theorem sendMessage_requires_stored_token_witness :
    ((newWSClient {} "1234564" "bob").sendMessage "hi").1 =
      some "token not yet issued by server" ∧
    (((newWSClient {} "1234564" "carol").handleEnvelope
      { Type_ := MessageTypeToken, Token := "abc123" }).sendMessage "hello").2.conn.writes =
      [] ++ [{ Type_ := MessageTypeMessage, Token := "abc123", Body := "hello", Sender := "carol" }] ∧
    ((newWSClient {} "1234564" "dave").handleEnvelope
      { Type_ := MessageTypeToken, Token := "token-value" }).handleEnvelope
        { Type_ := MessageTypeToken } =
      (newWSClient {} "1234564" "dave").handleEnvelope
        { Type_ := MessageTypeToken, Token := "token-value" } :=
  ⟨((sendMessage_requires_stored_token (newWSClient {} "1234564" "bob") {} "hi").1
      (Or.inl (by decide))).1,
   (((sendMessage_requires_stored_token (newWSClient {} "1234564" "carol")
      { Type_ := MessageTypeToken, Token := "abc123" } "hello").2.1
      (by decide) (by decide)).2.2.2.2 (by decide)).2,
   (sendMessage_requires_stored_token
      ((newWSClient {} "1234564" "dave").handleEnvelope
        { Type_ := MessageTypeToken, Token := "token-value" })
      { Type_ := MessageTypeToken } "x").2.2 (by decide) (by decide)⟩

end Chat
